import Mathlib

/-!
Shallow embedding of the `dir-test` procedural-macro crate
(`src/macros/src/lib.rs` plus the `Fixture` container in
`src/dir-test/src/lib.rs`).

Paths are modelled component-wise: a path is a `List String` of its
components, where the Rust root component `RootDir` appears as the
component `"/"` (this mirrors iterating a `std::path::Path`, whose first
component for an absolute path is the root).  Machine strings are Lean
`String`s; the process environment is an injected map
`String → Option String`; the filesystem is a record of decidable
predicates.  Environment-variable expansion in the source is recursive
through `std::env::var` values, so the embedding carries an explicit
recursion-depth fuel.
-/

deriving instance DecidableEq for Except

/-- `char::is_ascii_punctuation` from the Rust standard library: U+0021..=U+002F,
U+003A..=U+0040, U+005B..=U+0060, U+007B..=U+007E. -/
def isAsciiPunct (c : Char) : Bool :=
  (decide (0x21 ≤ c.toNat) && decide (c.toNat ≤ 0x2F)) ||
  (decide (0x3A ≤ c.toNat) && decide (c.toNat ≤ 0x40)) ||
  (decide (0x5B ≤ c.toNat) && decide (c.toNat ≤ 0x60)) ||
  (decide (0x7B ≤ c.toNat) && decide (c.toNat ≤ 0x7E))

/-- `s.replace(|c: char| c.is_ascii_punctuation(), "_")` — every ASCII
punctuation character is replaced by an underscore, all other characters are
kept (`src/macros/src/lib.rs:121,131`). -/
def sanitize (s : String) : String :=
  String.mk (s.data.map (fun c => if isAsciiPunct c then '_' else c))

/-- Split a character list at `'/'` separators (helper for component
iteration of a path string). -/
def splitSlash : List Char → List Char → List String
  | [], acc => [String.mk acc.reverse]
  | c :: rest, acc =>
    if c = '/' then String.mk acc.reverse :: splitSlash rest []
    else splitSlash rest (c :: acc)

/-- Component iteration of a Unix path string, as `std::path::Path`
iteration yields it: an absolute path contributes the root component `"/"`
first; empty segments produced by repeated separators are dropped. -/
def parseComponents (s : String) : List String :=
  let parts := splitSlash s.data []
  let nonempty := parts.filter (fun p => p != "")
  (if s.data.head? = some '/' then ["/"] else []) ++ nonempty

/-- Split a character list around its last `'.'`, returning
`(before, after)` (helper for `Path::file_stem`). -/
def rsplitDot : List Char → Option (List Char × List Char)
  | [] => none
  | c :: rest =>
    match rsplitDot rest with
    | some (pre, post) => some (c :: pre, post)
    | none => if c = '.' then some ([], rest) else none

/-- `Path::file_stem` on a file name: the part before the last `'.'`,
except that a name whose only `'.'` is leading (a dotfile) is its own
stem. -/
def fileStem (s : String) : String :=
  match rsplitDot s.data with
  | none => s
  | some ([], _) => s
  | some (pre, _) => String.mk pre

/-- Join a list of strings with a separator. -/
def joinSep (sep : String) : List String → String
  | [] => ""
  | [x] => x
  | x :: xs => x ++ sep ++ joinSep sep xs

/-- Render a component list back to the display string of the path
(`Path::to_string_lossy`). -/
def renderPath (comps : List String) : String :=
  match comps with
  | "/" :: rest => "/" ++ joinSep "/" rest
  | _ => joinSep "/" comps

/-- `Path::is_absolute` on the component representation: the first
component is the root. -/
def isAbsolutePath (p : List String) : Bool :=
  p.head? == some "/"

/-- `PathBuf::push`: pushing an absolute path replaces the receiver,
otherwise the components are appended. -/
def pushPath (base more : List String) : List String :=
  if isAbsolutePath more then more else base ++ more

/-- Errors raised while expanding `$VAR` segments of the `dir` argument. -/
inductive PathErr where
  | envResolution (name : String)
  | outOfFuel
deriving DecidableEq

/-- Fold the components of a path through a component resolver,
accumulating with `pushPath` — the loop body of
`DirTestArg::resolve_path` (`src/macros/src/lib.rs:208-214`). -/
def resolveListAux (f : String → Except PathErr (List String))
    (acc : List String) : List String → Except PathErr (List String)
  | [] => .ok acc
  | c :: rest =>
    match f c with
    | .error e => .error e
    | .ok r => resolveListAux f (pushPath acc r) rest

/-- `DirTestArg::resolve_component` (`src/macros/src/lib.rs:216-230`): a
component starting with `'$'` is replaced by the (recursively resolved)
value of the environment variable named by the remaining characters; a
missing variable is an error naming it; any other component stands for
itself.  `fuel` bounds the `$`-chasing depth, which is unbounded in the
source. -/
def resolveComponent (env : String → Option String) :
    Nat → String → Except PathErr (List String)
  | 0, _ => .error .outOfFuel
  | fuel+1, c =>
    match c.data with
    | '$' :: rest =>
      (match env (String.mk rest) with
       | none => .error (.envResolution (String.mk rest))
       | some v => resolveListAux (resolveComponent env fuel) [] (parseComponents v))
    | _ => .ok [c]

/-- `DirTestArg::resolve_path` (`src/macros/src/lib.rs:208-214`). -/
def resolvePath (env : String → Option String) (fuel : Nat)
    (comps : List String) : Except PathErr (List String) :=
  resolveListAux (resolveComponent env fuel) [] comps

/-- Filesystem snapshot, as the two queries `resolve_dir` makes of it. -/
structure FS where
  pathExists : List String → Bool
  isDir : List String → Bool

/-- Errors produced by `DirTestArg::resolve_dir`; the three directory
checks carry the resolved path they complain about. -/
inductive DirErr where
  | missingDir
  | envErr (e : PathErr)
  | notAbsolute (p : List String)
  | notFound (p : List String)
  | notADirectory (p : List String)
deriving DecidableEq

/-- `DirTestArg::resolve_dir` (`src/macros/src/lib.rs:181-206`): requires
the `dir` argument, expands it, then checks — in this order — that the
result is absolute, exists, and is a directory. -/
def resolveDir (env : String → Option String) (fuel : Nat) (fs : FS)
    (dirArg : Option String) : Except DirErr (List String) :=
  match dirArg with
  | none => .error .missingDir
  | some dir =>
    match resolvePath env fuel (parseComponents dir) with
    | .error e => .error (.envErr e)
    | .ok resolved =>
      if !isAbsolutePath resolved then .error (.notAbsolute resolved)
      else if !fs.pathExists resolved then .error (.notFound resolved)
      else if !fs.isDir resolved then .error (.notADirectory resolved)
      else .ok resolved

/-- The parsed `#[dir_test(...)]` arguments (`struct DirTestArg`,
`src/macros/src/lib.rs:172-178`).  The source field `postfix` is called
`postfixArg` here because `postfix` is a Lean keyword; a loader is kept as
the display string of its `syn::Path`. -/
structure DirTestArg where
  dir : Option String
  glob : Option String
  postfixArg : Option String
  loader : Option String
deriving DecidableEq

/-- A parsed `key: value` token: the string-literal values taken by
`dir`/`glob`/`postfix`, or the path value taken by `loader`. -/
inductive AVal where
  | str (s : String)
  | pathRef (p : String)
deriving DecidableEq

/-- Failures of `impl syn::parse::Parse for DirTestArg`
(`src/macros/src/lib.rs:233-282`) — the spec's ArgumentError kinds that the
parser itself raises. -/
inductive ArgErr where
  | duplicatedArg (k : String)
  | unknownArg (k : String)
  | malformedValue (k : String)
deriving DecidableEq

/-- The key dispatch of `impl Parse for DirTestArg`
(`src/macros/src/lib.rs:247-274`): `dir`, `glob` and `postfix` take a
string literal, `loader` takes a path, any other key is unknown, and a
value of the wrong shape is a parse failure. -/
def applyArg (acc : DirTestArg) (k : String) (v : AVal) :
    Except ArgErr DirTestArg :=
  match k, v with
  | "dir", AVal.str s => .ok { acc with dir := some s }
  | "glob", AVal.str s => .ok { acc with glob := some s }
  | "postfix", AVal.str s => .ok { acc with postfixArg := some s }
  | "loader", AVal.pathRef p => .ok { acc with loader := some p }
  | "dir", _ => .error (.malformedValue k)
  | "glob", _ => .error (.malformedValue k)
  | "postfix", _ => .error (.malformedValue k)
  | "loader", _ => .error (.malformedValue k)
  | _, _ => .error (.unknownArg k)

/-- The parse loop of `impl Parse for DirTestArg`
(`src/macros/src/lib.rs:238-278`): for each `key: value` token, first fail
if the key was already seen, then dispatch on the key with `applyArg`, and
record the key as visited. -/
def parseArgsFrom : List (String × AVal) → List String → DirTestArg →
    Except ArgErr DirTestArg
  | [], _, acc => .ok acc
  | (k, v) :: rest, visited, acc =>
    if visited.contains k then .error (.duplicatedArg k)
    else
      match applyArg acc k v with
      | .error e => .error e
      | .ok acc' => parseArgsFrom rest (k :: visited) acc'

/-- Entry point of the argument parser: start with no visited keys and the
default (all-`None`) `DirTestArg`. -/
def parseDirTestArg (toks : List (String × AVal)) : Except ArgErr DirTestArg :=
  parseArgsFrom toks [] ⟨none, none, none, none⟩

/-- `is_keyword` (`src/macros/src/lib.rs:292-346`), transcribed literally —
including the entry `"enum "` that carries a trailing space in the
source. -/
def is_keyword (name : String) : Bool :=
  ["as", "break", "const", "continue", "crate", "else", "enum ", "extern",
   "false", "fn", "for", "if", "impl", "in", "let", "loop", "match", "mod",
   "move", "mut", "pub", "ref", "return", "self", "Self", "static", "struct",
   "super", "trait", "true", "type", "unsafe", "use", "where", "while",
   "async", "await", "dyn", "abstract", "become", "box", "do", "final",
   "macro", "override", "priv", "typeof", "unsized", "virtual", "yield",
   "try"].contains name

/-- The identifier the macro emits: either a plain identifier
(`syn::Ident::new`, which rejects Rust keywords) or a raw `r#...`
identifier (`syn::Ident::new_raw`). -/
inductive RIdent where
  | plain (s : String)
  | raw (s : String)
deriving DecidableEq

/-- `make_ident` (`src/macros/src/lib.rs:284-290`). -/
def make_ident (name : String) : RIdent :=
  if is_keyword name then RIdent.raw name else RIdent.plain name

/-- Maps `Some(p)` to `"_" ++ p` and `None` to `""` — the postfix step of
`TestBuilder::test_name` (`src/macros/src/lib.rs:134-137`), which appends
the postfix text verbatim after an underscore. -/
def postfixPart : Option String → String
  | none => ""
  | some p => "_" ++ p

/-- `TestBuilder::test_name` (`src/macros/src/lib.rs:106-140`) after the
relative path has been computed: start from the test function's name plus
`"__"`, append each sanitized non-final component followed by `'_'`, then
the sanitized stem of the final component, then the verbatim postfix. -/
def testName (funcName : String) (relComps : List String)
    (pf : Option String) : String :=
  let base := funcName ++ "__"
  let withDirs := relComps.dropLast.foldl
    (fun acc comp => acc ++ sanitize comp ++ "_") base
  let withStem := withDirs ++ sanitize (fileStem (relComps.getLast?.getD ""))
  withStem ++ postfixPart pf

/-- The generated-name format exactly as the specification's external
contract states it (spec §6 and §4.4 steps 2-4): the sanitized relative
path segments joined by underscore, the last segment stripped of its
extension, then `_<postfix>` when a postfix is configured — with no
other parts. -/
def specName (relComps : List String) (pf : Option String) : String :=
  joinSep "_" (relComps.dropLast.map sanitize ++
    [sanitize (fileStem (relComps.getLast?.getD ""))]) ++ postfixPart pf

/-- One entry of the glob engine's result stream, as `TestBuilder::build`
interrogates it: its path and whether the filesystem says it is a regular
file (`entry.is_file()`). -/
structure FSEntry where
  path : List String
  isFile : Bool
deriving DecidableEq

/-- `fixture_path.strip_prefix(dir_path)` on the component representation
(`src/macros/src/lib.rs:110`): remove `dir` from the front of the path,
`none` when `dir` is not a prefix (in the source this `none` is an
`unwrap` panic). -/
def stripPrefixComps (dir p : List String) : Option (List String) :=
  if dir.isPrefixOf p then some (p.drop dir.length) else none

/-- The content expression emitted into a generated test
(`src/macros/src/lib.rs:92-95`): `::core::include_str!(path)` when no
loader is configured, or `loader(path)` for a configured loader. -/
inductive ContentExpr where
  | includeStr (path : String)
  | loaderCall (loader : String) (path : String)
deriving DecidableEq

/-- One generated test registration (`TestBuilder::build_test`,
`src/macros/src/lib.rs:85-104`): its identifier text, the forwarded
attributes, the content expression and path handed to `Fixture::new`, and
the user function it calls. -/
structure GenTest where
  name : String
  attrs : List String
  content : ContentExpr
  fixturePath : String
  targetFunc : String
deriving DecidableEq

/-- `struct TestBuilder` (`src/macros/src/lib.rs:33-37`): the parsed
arguments, the user function's name, and the already-extracted
`dir_test_attr` attributes (kept opaque as strings). -/
structure TestBuilder where
  arg : DirTestArg
  funcName : String
  testAttrs : List String
deriving DecidableEq

/-- `TestBuilder::build_test` (`src/macros/src/lib.rs:85-104`) for one
discovered file: compute the test name from the path relative to the
resolved directory, choose the content expression by the configured
loader, and emit `Fixture::new(<content>, <path>)` passed to the user
function.  `none` models the `unwrap` panic when the file is not under the
directory. -/
def buildTest (b : TestBuilder) (dir filePath : List String) : Option GenTest :=
  match stripPrefixComps dir filePath with
  | none => none
  | some rel =>
    some { name := testName b.funcName rel b.arg.postfixArg
           attrs := b.testAttrs
           content :=
             match b.arg.loader with
             | some l => ContentExpr.loaderCall l (renderPath filePath)
             | none => ContentExpr.includeStr (renderPath filePath)
           fixturePath := renderPath filePath
           targetFunc := b.funcName }

/-- The registration `buildTest` produces for a file known to lie under
the directory (totalized form, used to state what `buildTest` returns). -/
def mkTestPath (b : TestBuilder) (dir filePath : List String) : GenTest :=
  { name := testName b.funcName (filePath.drop dir.length) b.arg.postfixArg
    attrs := b.testAttrs
    content :=
      match b.arg.loader with
      | some l => ContentExpr.loaderCall l (renderPath filePath)
      | none => ContentExpr.includeStr (renderPath filePath)
    fixturePath := renderPath filePath
    targetFunc := b.funcName }

/-- Failures of `TestBuilder::build` modelled here: a directory-resolution
error, or the strip-prefix panic inside `test_name`. -/
inductive BuildErr where
  | dirErr (e : DirErr)
  | stripPanic
deriving DecidableEq

/-- The entry filter of `TestBuilder::build`
(`src/macros/src/lib.rs:69-75`): entries the engine could not stat
(`Err`) are silently skipped by `filter_map(|p| p.ok())`, and non-regular
entries are skipped by the `is_file` test. -/
def goodFiles (entries : List (Except Unit FSEntry)) : List FSEntry :=
  (entries.filterMap Except.toOption).filter (fun f => f.isFile)

/-- The per-entry loop of `TestBuilder::build`: emit one registration per
surviving file, in order, aborting on a `build_test` failure. -/
def buildAll (b : TestBuilder) (dir : List String) :
    List FSEntry → Except BuildErr (List GenTest)
  | [] => .ok []
  | f :: rest =>
    match buildTest b dir f.path with
    | none => .error .stripPanic
    | some t =>
      match buildAll b dir rest with
      | .error e => .error e
      | .ok ts => .ok (t :: ts)

/-- `TestBuilder::build` (`src/macros/src/lib.rs:48-83`): resolve the
directory, then turn the glob engine's entry stream into one registration
per regular file.  The entry stream `entries` is the output of the
external `glob` crate for the pattern `dir/<glob>`; it is passed in as
part of the filesystem state. -/
def build (b : TestBuilder) (env : String → Option String) (fuel : Nat)
    (fs : FS) (entries : List (Except Unit FSEntry)) :
    Except BuildErr (List GenTest) :=
  match resolveDir env fuel fs b.arg.dir with
  | .error e => .error (.dirErr e)
  | .ok dir => buildAll b dir (goodFiles entries)

/-- The set of generated test names of one generation run (empty when
generation aborts with a diagnostic). -/
def buildNames (b : TestBuilder) (env : String → Option String) (fuel : Nat)
    (fs : FS) (entries : List (Except Unit FSEntry)) : List String :=
  match build b env fuel fs entries with
  | .ok ts => ts.map (fun t => t.name)
  | .error _ => []

/-- What a content expression becomes once the generated code is
compiled.  Modelled from the spec (§4.5): `include_str!` "captures the
file's full text at generation time and embeds it directly", yielding a
literal; a custom loader call survives to test-run time.  `fileText` is
the filesystem's text content per path. -/
inductive RuntimeContent where
  | lit (text : String)
  | call (loader : String) (path : String)
deriving DecidableEq

/-- Compile-time expansion of the emitted content expression (see
`RuntimeContent`). -/
def expandContent (fileText : String → String) : ContentExpr → RuntimeContent
  | .includeStr p => .lit (fileText p)
  | .loaderCall l p => .call l p

/-- Whether the test performs file I/O when it runs: an embedded literal
does not, a deferred loader call does. -/
def runtimeFileIO : RuntimeContent → Bool
  | .lit _ => false
  | .call _ _ => true

/-- Modelled from the spec: the contract of the external glob-based File
Discoverer, which is not part of this repository's sources — a
DiscoveredFile is "an absolute path to a regular file located under a
ResolvedDirectory" (spec §3), and the discoverer "only returns files
located under that directory" (spec §4.4 step 1). -/
def DiscoveredUnder (dir : List String) (f : FSEntry) : Prop :=
  f.isFile = true ∧ dir <+: f.path

/-- Concrete builder used by the evaluation theorems: `dir: "/d"`, no
glob, no postfix, no loader, test function `f`, no forwarded
attributes. -/
def bEx : TestBuilder := ⟨⟨some "/d", none, none, none⟩, "f", []⟩

/-- The registration `bEx` emits for `/d/x.txt`. -/
def tEx : GenTest :=
  { name := "f__x", attrs := [], content := ContentExpr.includeStr "/d/x.txt"
    fixturePath := "/d/x.txt", targetFunc := "f" }

/-- Concrete environment used by evaluation theorems: no variable set. -/
def envEx : String → Option String := fun _ => none

/-- Concrete filesystem used by evaluation theorems: everything exists and
is a directory. -/
def fsEx : FS := ⟨fun _ => true, fun _ => true⟩

/-- Concrete glob-result stream: one regular file, one entry the engine
could not stat, one non-regular entry. -/
def entriesEx : List (Except Unit FSEntry) :=
  [Except.ok ⟨["/", "d", "a.txt"], true⟩, Except.error (),
   Except.ok ⟨["/", "d", "s"], false⟩]

/-- Two regular files under `/d`, in one iteration order. -/
def entriesP₁ : List (Except Unit FSEntry) :=
  [Except.ok ⟨["/", "d", "a.txt"], true⟩, Except.ok ⟨["/", "d", "b.txt"], true⟩]

/-- The same two files in the opposite iteration order. -/
def entriesP₂ : List (Except Unit FSEntry) :=
  [Except.ok ⟨["/", "d", "b.txt"], true⟩, Except.ok ⟨["/", "d", "a.txt"], true⟩]

theorem joinSep_cons_ne (sep x : String) (ys : List String) (h : ys ≠ []) :
    joinSep sep (x :: ys) = x ++ sep ++ joinSep sep ys := by
  cases ys with
  | nil => exact absurd rfl h
  | cons y ys => rfl

theorem foldl_sanitize_join (l : List String) (init tail : String) :
    l.foldl (fun acc comp => acc ++ sanitize comp ++ "_") init ++ tail
      = init ++ joinSep "_" (l.map sanitize ++ [tail]) := by
  induction l generalizing init with
  | nil => simp [joinSep]
  | cons x xs ih =>
    simp only [List.foldl_cons, List.map_cons, List.cons_append]
    rw [joinSep_cons_ne _ _ _ (by simp), ih]
    simp [String.append_assoc]

/-- Closed form of `TestBuilder::test_name`: the function name, a double
underscore, and then exactly the specification's name format. -/
theorem testName_eq (funcName : String) (relComps : List String)
    (pf : Option String) :
    testName funcName relComps pf = funcName ++ "__" ++ specName relComps pf := by
  simp only [testName, specName]
  rw [foldl_sanitize_join]
  simp [String.append_assoc]

theorem sanitize_punct_mem {c : Char} {s : String}
    (hc : c ∈ (sanitize s).data) (hp : isAsciiPunct c = true) : c = '_' := by
  have hc' : c ∈ s.data.map (fun a => if isAsciiPunct a then '_' else a) := hc
  rcases List.mem_map.mp hc' with ⟨a, -, ha⟩
  by_cases h : isAsciiPunct a = true
  · rw [if_pos h] at ha; exact ha.symm
  · rw [if_neg h] at ha; exact absurd (ha ▸ hp) h

theorem mem_joinSep_data {c : Char} (sep : String) :
    ∀ l : List String, c ∈ (joinSep sep l).data →
      (∃ x ∈ l, c ∈ x.data) ∨ c ∈ sep.data
  | [], h => by simp [joinSep] at h
  | [x], h => Or.inl ⟨x, by simp, by simpa [joinSep] using h⟩
  | x :: y :: ys, h => by
    rw [joinSep_cons_ne _ _ _ (by simp), String.data_append,
      String.data_append] at h
    rcases List.mem_append.mp h with h1 | h2
    · rcases List.mem_append.mp h1 with h3 | h4
      · exact Or.inl ⟨x, by simp, h3⟩
      · exact Or.inr h4
    · rcases mem_joinSep_data sep (y :: ys) h2 with ⟨z, hz, hcz⟩ | h5
      · exact Or.inl ⟨z, List.mem_cons_of_mem x hz, hcz⟩
      · exact Or.inr h5

/-- C2 counterexample: the claim says the generated test name is exactly
the sanitized relative-path segments joined by underscore (`foo` for
`foo.txt`) and nothing else, but for test function `test` the code
generates `test__foo`. -/
theorem testName_spec_format_cex :
    testName "test" ["foo.txt"] none = "test__foo" ∧
    specName ["foo.txt"] none = "foo" ∧
    testName "test" ["foo.txt"] none ≠ specName ["foo.txt"] none :=
  ⟨by decide, by decide, by decide⟩

/-- C2 (amended): the generated test name is the test function's name,
then `"__"`, then the sanitized relative-path segments joined by
underscore with the last segment's extension removed, then `_<postfix>`
when one is configured, and nothing else; in the spec's scenario the two
tests for `foo.txt` and `sub/bar.txt` under function `test` are
`test__foo` and `test__sub_bar`. -/
theorem testName_contract :
    (∀ (funcName : String) (relComps : List String) (pf : Option String),
      testName funcName relComps pf = funcName ++ "__" ++ specName relComps pf) ∧
    testName "test" ["foo.txt"] none = "test__foo" ∧
    testName "test" ["sub", "bar.txt"] none = "test__sub_bar" ∧
    testName "test" ["foo.txt"] (some "custom") = "test__foo_custom" ∧
    testName "test" ["sub", "bar.txt"] (some "custom") = "test__sub_bar_custom" :=
  ⟨testName_eq, by decide, by decide, by decide, by decide⟩

/-- C3 counterexample: with postfix `a!b` the generated name for
`foo.txt` contains `'!'`, so it is not made of letters, digits and
underscores only — the postfix is appended verbatim. -/
theorem testName_only_word_chars_cex :
    (testName "test" ["foo.txt"] (some "a!b")).data.all
      (fun c => c.isAlphanum || c == '_') = false := by decide

/-- C3 (amended): apart from underscore, an ASCII punctuation character
can occur in a generated test name only if it occurs in the test
function's name or in the verbatim-appended postfix; the path-derived
portion of the name is fully sanitized. -/
theorem testName_punct_sources :
    ∀ (funcName : String) (relComps : List String) (pf : Option String)
      (c : Char),
      c ∈ (testName funcName relComps pf).data →
      isAsciiPunct c = true → c ≠ '_' →
      c ∈ funcName.data ∨ ∃ p, pf = some p ∧ c ∈ p.data := by
  intro funcName relComps pf c hmem hp hne
  rw [testName_eq, String.data_append, String.data_append] at hmem
  have hdus : ("__" : String).data = ['_', '_'] := rfl
  rcases List.mem_append.mp hmem with h1 | h2
  · rcases List.mem_append.mp h1 with h3 | h4
    · exact Or.inl h3
    · rw [hdus] at h4
      have : c = '_' := by simpa using h4
      exact absurd this hne
  · rw [specName, String.data_append] at h2
    rcases List.mem_append.mp h2 with h5 | h6
    · rcases mem_joinSep_data "_" _ h5 with ⟨x, hx, hcx⟩ | hsep
      · rcases List.mem_append.mp hx with hx1 | hx2
        · rcases List.mem_map.mp hx1 with ⟨y, -, hy⟩
          exact absurd (sanitize_punct_mem (hy ▸ hcx) hp) hne
        · have hx' : x = sanitize (fileStem (relComps.getLast?.getD "")) := by
            simpa using hx2
          exact absurd (sanitize_punct_mem (hx' ▸ hcx) hp) hne
      · have : c = '_' := by simpa using hsep
        exact absurd this hne
    · cases pf with
      | none => cases h6
      | some p =>
        have hpd : (postfixPart (some p)).data = '_' :: p.data := rfl
        rw [hpd] at h6
        rcases List.mem_cons.mp h6 with h | h
        · exact absurd h hne
        · exact Or.inr ⟨p, rfl, h⟩

/-- C3 witness: for function name `x!`, file `f.txt`, no postfix, the
punctuation character `'!'` in the generated name indeed comes from the
function name. -/
theorem testName_punct_sources_witness : '!' ∈ ("x!" : String).data :=
  Or.resolve_right
    (testName_punct_sources "x!" ["f.txt"] none '!' (by decide) (by decide)
      (by decide))
    (by simp)

/-- C10: the keyword table of `make_ident` contains `"enum "` with a
trailing space instead of `"enum"`, so the name `enum` is not recognized
as a keyword and is emitted through the unescaped-identifier constructor
(which rejects Rust keywords), while every other keyword such as `fn` is
escaped to a raw identifier. -/
theorem is_keyword_enum_gap :
    is_keyword "enum" = false ∧ is_keyword "enum " = true ∧
    make_ident "enum" = RIdent.plain "enum" ∧
    make_ident "fn" = RIdent.raw "fn" :=
  ⟨by decide, by decide, by decide, by decide⟩

theorem resolveComponent_no_dollar (env : String → Option String) (fuel : Nat)
    (c : String) (h : c.data.head? ≠ some '$') :
    resolveComponent env (fuel + 1) c = .ok [c] := by
  rcases hd : c.data with _ | ⟨a, as⟩
  · simp [resolveComponent, hd]
  · rw [hd] at h
    simp only [List.head?_cons, ne_eq, Option.some.injEq] at h
    simp only [resolveComponent, hd]
    split
    · rename_i heq
      injection heq with h1 _
      exact absurd h1 h
    · rfl

theorem resolveComponent_dollar_unset (env : String → Option String)
    (fuel : Nat) (c : String) (hc : c.data.head? = some '$')
    (henv : env (String.mk c.data.tail) = none) :
    resolveComponent env (fuel + 1) c
      = .error (.envResolution (String.mk c.data.tail)) := by
  rcases hd : c.data with _ | ⟨a, as⟩
  · rw [hd] at hc; cases hc
  · rw [hd] at hc
    simp only [List.head?_cons, Option.some.injEq] at hc
    subst hc
    rw [hd] at henv
    simp only [List.tail_cons] at henv
    simp [resolveComponent, hd, henv]

theorem resolveComponent_dollar_set (env : String → Option String)
    (fuel : Nat) (c v : String) (hc : c.data.head? = some '$')
    (henv : env (String.mk c.data.tail) = some v) :
    resolveComponent env (fuel + 1) c = resolvePath env fuel (parseComponents v) := by
  rcases hd : c.data with _ | ⟨a, as⟩
  · rw [hd] at hc; cases hc
  · rw [hd] at hc
    simp only [List.head?_cons, Option.some.injEq] at hc
    subst hc
    rw [hd] at henv
    simp only [List.tail_cons] at henv
    simp [resolveComponent, resolvePath, hd, henv]

theorem resolveListAux_no_dollar (env : String → Option String) (fuel : Nat)
    (c : String) (post : List String) (hc : c.data.head? = some '$')
    (henv : env (String.mk c.data.tail) = none) :
    ∀ (pre : List String) (acc : List String),
      (∀ p ∈ pre, p.data.head? ≠ some '$') →
      resolveListAux (resolveComponent env (fuel + 1)) acc (pre ++ c :: post)
        = .error (.envResolution (String.mk c.data.tail))
  | [], acc, _ => by
    simp only [List.nil_append, resolveListAux,
      resolveComponent_dollar_unset env fuel c hc henv]
  | p :: pre, acc, h => by
    simp only [List.cons_append, resolveListAux,
      resolveComponent_no_dollar env fuel p (h p (List.mem_cons_self p pre))]
    exact resolveListAux_no_dollar env fuel c post hc henv pre _
      (fun q hq => h q (List.mem_cons_of_mem p hq))

/-- C5: a path segment that does not begin with `$` resolves to itself; a
segment `$NAME` resolves, when `NAME` is set, to the recursively resolved
value of `NAME` (whose own `$`-segments are substituted in turn), and,
when `NAME` is unset, to an environment-resolution error naming `NAME`;
consequently a path whose earlier segments are plain and that contains a
`$`-segment with an unset variable fails with exactly that error. -/
theorem resolve_env_segments :
    (∀ (env : String → Option String) (fuel : Nat) (c : String),
      c.data.head? ≠ some '$' →
      resolveComponent env (fuel + 1) c = .ok [c]) ∧
    (∀ (env : String → Option String) (fuel : Nat) (c v : String),
      c.data.head? = some '$' →
      env (String.mk c.data.tail) = some v →
      resolveComponent env (fuel + 1) c = resolvePath env fuel (parseComponents v)) ∧
    (∀ (env : String → Option String) (fuel : Nat) (c : String),
      c.data.head? = some '$' →
      env (String.mk c.data.tail) = none →
      resolveComponent env (fuel + 1) c
        = .error (.envResolution (String.mk c.data.tail))) ∧
    (∀ (env : String → Option String) (fuel : Nat) (pre : List String)
       (c : String) (post : List String),
      (∀ p ∈ pre, p.data.head? ≠ some '$') →
      c.data.head? = some '$' →
      env (String.mk c.data.tail) = none →
      resolvePath env (fuel + 1) (pre ++ c :: post)
        = .error (.envResolution (String.mk c.data.tail))) :=
  ⟨resolveComponent_no_dollar,
   fun env fuel c v hc henv => resolveComponent_dollar_set env fuel c v hc henv,
   fun env fuel c hc henv => resolveComponent_dollar_unset env fuel c hc henv,
   fun env fuel pre c post hpre hc henv =>
     resolveListAux_no_dollar env fuel c post hc henv pre [] hpre⟩

/-- C5 witness: resolving `a/$X` with no environment variables set fails
naming `X`, and `$A/b` with `A=/x` expands recursively. -/
theorem resolve_env_segments_witness :
    resolvePath (fun _ => none) 1 ["a", "$X"]
      = .error (.envResolution "X") ∧
    resolveComponent (fun n => if n = "A" then some "/x" else none) 2 "$A"
      = resolvePath (fun n => if n = "A" then some "/x" else none) 1
          (parseComponents "/x") :=
  ⟨(resolve_env_segments.2.2.2 (fun _ => none) 0 ["a"] "$X" []
      (by decide) (by decide) rfl).trans (by decide),
   resolve_env_segments.2.1 (fun n => if n = "A" then some "/x" else none) 1
     "$A" "/x" (by decide) (by decide)⟩

/-- C1 counterexample: for `dir: "../foo"` on a filesystem where the
resolved path `../foo` does not exist (and is not absolute), the claim
predicts the NotFound error, but `resolve_dir` checks absoluteness first
and reports NotAbsolute. -/
theorem resolveDir_notFound_claim_cex :
    resolveDir (fun _ => none) 1 ⟨fun _ => false, fun _ => false⟩ (some "../foo")
        = .error (.notAbsolute ["..", "foo"]) ∧
    resolveDir (fun _ => none) 1 ⟨fun _ => false, fun _ => false⟩ (some "../foo")
        ≠ .error (.notFound ["..", "foo"]) :=
  ⟨by decide, by decide⟩

/-- C1 (amended): the validation checks of `resolve_dir` are applied in
the fixed order (a) is absolute, (b) exists, (c) is a directory, and the
first violated check determines the error kind; in particular a resolved
path that is not absolute is reported NotAbsolute regardless of whether it
exists. -/
theorem resolveDir_check_order (env : String → Option String) (fuel : Nat)
    (fs : FS) (dir : String) (resolved : List String)
    (hres : resolvePath env fuel (parseComponents dir) = .ok resolved) :
    (isAbsolutePath resolved = false →
      resolveDir env fuel fs (some dir) = .error (.notAbsolute resolved)) ∧
    (isAbsolutePath resolved = true → fs.pathExists resolved = false →
      resolveDir env fuel fs (some dir) = .error (.notFound resolved)) ∧
    (isAbsolutePath resolved = true → fs.pathExists resolved = true →
      fs.isDir resolved = false →
      resolveDir env fuel fs (some dir) = .error (.notADirectory resolved)) ∧
    (isAbsolutePath resolved = true → fs.pathExists resolved = true →
      fs.isDir resolved = true →
      resolveDir env fuel fs (some dir) = .ok resolved) := by
  refine ⟨fun h1 => ?_, fun h1 h2 => ?_, fun h1 h2 h3 => ?_, fun h1 h2 h3 => ?_⟩
  all_goals simp [resolveDir, hres, h1]
  all_goals simp [h2]
  all_goals simp [h3]

/-- C1 witness (amended order at work): an absolute but nonexistent
directory is reported NotFound. -/
theorem resolveDir_check_order_witness :
    resolveDir (fun _ => none) 1 ⟨fun _ => false, fun _ => false⟩ (some "/nope")
      = .error (.notFound ["/", "nope"]) :=
  (resolveDir_check_order (fun _ => none) 1 ⟨fun _ => false, fun _ => false⟩
      "/nope" ["/", "nope"] (by decide)).2.1 (by decide) (by decide)

theorem buildTest_eq_under (b : TestBuilder) {dir p : List String}
    (h : dir <+: p) : buildTest b dir p = some (mkTestPath b dir p) := by
  have hb : dir.isPrefixOf p = true := List.isPrefixOf_iff_prefix.mpr h
  simp [buildTest, stripPrefixComps, hb, mkTestPath]

theorem buildAll_eq_map (b : TestBuilder) (dir : List String) :
    ∀ files : List FSEntry, (∀ f ∈ files, dir <+: f.path) →
      buildAll b dir files
        = .ok (files.map (fun f => mkTestPath b dir f.path))
  | [], _ => rfl
  | f :: rest, h => by
    simp only [buildAll, buildTest_eq_under b (h f (List.mem_cons_self f rest)),
      buildAll_eq_map b dir rest (fun q hq => h q (List.mem_cons_of_mem f hq)),
      List.map_cons]

theorem goodFiles_length_eq (entries : List (Except Unit FSEntry)) :
    (goodFiles entries).length
      = entries.countP
          (fun e => match e with | .ok f => f.isFile | .error _ => false) := by
  induction entries with
  | nil => rfl
  | cons e rest ih =>
    cases e with
    | error u =>
      simpa [goodFiles, List.filterMap_cons, Except.toOption,
        List.countP_cons] using ih
    | ok f =>
      cases hf : f.isFile with
      | true =>
        simpa [goodFiles, List.filterMap_cons, Except.toOption,
          List.countP_cons, hf] using ih
      | false =>
        simpa [goodFiles, List.filterMap_cons, Except.toOption,
          List.countP_cons, hf] using ih

/-- C4: when the directory resolves and the discovered entries lie under
it, generation succeeds and the number of generated test registrations
equals the number of stream entries that are regular files — entries the
engine could not stat and non-regular entries are skipped silently, and an
empty match set yields zero tests without an error. -/
theorem build_count_eq_matches :
    ∀ (b : TestBuilder) (env : String → Option String) (fuel : Nat) (fs : FS)
      (dir : List String) (entries : List (Except Unit FSEntry)),
      resolveDir env fuel fs b.arg.dir = .ok dir →
      (∀ f ∈ goodFiles entries, dir <+: f.path) →
      Except.map List.length (build b env fuel fs entries)
        = .ok (entries.countP
            (fun e => match e with | .ok f => f.isFile | .error _ => false)) := by
  intro b env fuel fs dir entries hdir hunder
  simp only [build, hdir]
  rw [buildAll_eq_map b dir (goodFiles entries) hunder]
  simp [Except.map, goodFiles_length_eq]

/-- C4 witness: a stream with one regular file, one unreadable entry and
one non-file entry generates exactly one test. -/
theorem build_count_eq_matches_witness :
    Except.map List.length (build bEx envEx 1 fsEx entriesEx) = .ok 1 :=
  (build_count_eq_matches bEx envEx 1 fsEx ["/", "d"] entriesEx
    (by decide) (by decide)).trans (by decide)

/-- C7: every emitted registration hands `Fixture::new` the file's path
string, and its content expression is `include_str!(path)` — which
compiles to the embedded file text and performs no file I/O at test-run
time — when no loader is configured, or `loader(path)` — a call deferred
to test-run time on the absolute path — when one is. -/
theorem buildTest_loader_contract :
    ∀ (b : TestBuilder) (dir filePath : List String) (t : GenTest)
      (fileText : String → String),
      buildTest b dir filePath = some t →
      t.content = (match b.arg.loader with
        | none => ContentExpr.includeStr (renderPath filePath)
        | some l => ContentExpr.loaderCall l (renderPath filePath)) ∧
      expandContent fileText t.content = (match b.arg.loader with
        | none => RuntimeContent.lit (fileText (renderPath filePath))
        | some l => RuntimeContent.call l (renderPath filePath)) ∧
      runtimeFileIO (expandContent fileText t.content) = b.arg.loader.isSome ∧
      t.fixturePath = renderPath filePath := by
  intro b dir filePath t ft h
  simp only [buildTest] at h
  split at h
  · cases h
  · injection h with h
    subst h
    cases b.arg.loader with
    | none => simp [expandContent, runtimeFileIO]
    | some l => simp [expandContent, runtimeFileIO]

/-- C7 witness: with no loader configured the registration for
`/d/x.txt` embeds the file text and does no run-time I/O. -/
theorem buildTest_loader_contract_witness :
    tEx.content = ContentExpr.includeStr "/d/x.txt" ∧
    expandContent (fun _ => "text") tEx.content = RuntimeContent.lit "text" ∧
    runtimeFileIO (expandContent (fun _ => "text") tEx.content) = false ∧
    tEx.fixturePath = "/d/x.txt" :=
  buildTest_loader_contract bEx ["/", "d"] ["/", "d", "x.txt"] tEx
    (fun _ => "text") (by decide)

/-- C9: every file satisfying the File Discoverer's contract (a regular
file under the resolved directory) strips to a well-defined relative path
— the prefix removal succeeds and is exact — so the `unwrap` inside
`test_name` cannot panic and `build_test` yields a registration. -/
theorem discovered_strip_total :
    ∀ (b : TestBuilder) (dir : List String) (f : FSEntry),
      DiscoveredUnder dir f →
      stripPrefixComps dir f.path = some (f.path.drop dir.length) ∧
      dir ++ f.path.drop dir.length = f.path ∧
      (buildTest b dir f.path).isSome = true := by
  intro b dir f hd
  obtain ⟨-, hpre⟩ := hd
  have hb : dir.isPrefixOf f.path = true := List.isPrefixOf_iff_prefix.mpr hpre
  obtain ⟨t, ht⟩ := hpre
  refine ⟨by simp [stripPrefixComps, hb], ?_, by simp [buildTest, stripPrefixComps, hb]⟩
  rw [← ht, List.drop_left]

/-- C9 witness: the discovered file `/d/x.txt` under `/d` strips to
`x.txt` and builds a registration. -/
theorem discovered_strip_total_witness :
    stripPrefixComps ["/", "d"] ["/", "d", "x.txt"] = some ["x.txt"] ∧
    ["/", "d"] ++ ["x.txt"] = ["/", "d", "x.txt"] ∧
    (buildTest bEx ["/", "d"] ["/", "d", "x.txt"]).isSome = true :=
  discovered_strip_total bEx ["/", "d"] ⟨["/", "d", "x.txt"], true⟩
    ⟨rfl, by decide⟩

/-- C8: generation is a pure function of the configuration, the
environment mapping and the filesystem state — and moreover the multiset
of generated names is invariant under the iteration order of the entry
stream, so re-running generation against an unchanged filesystem yields an
identical set of generated names. -/
theorem buildNames_deterministic :
    ∀ (b : TestBuilder) (env : String → Option String) (fuel : Nat) (fs : FS)
      (dir : List String) (entries₁ entries₂ : List (Except Unit FSEntry)),
      resolveDir env fuel fs b.arg.dir = .ok dir →
      (∀ f ∈ goodFiles entries₁, dir <+: f.path) →
      entries₁.Perm entries₂ →
      (buildNames b env fuel fs entries₁).Perm
        (buildNames b env fuel fs entries₂) := by
  intro b env fuel fs dir e₁ e₂ hdir hunder hperm
  have hgood : (goodFiles e₁).Perm (goodFiles e₂) :=
    (hperm.filterMap Except.toOption).filter _
  have hunder₂ : ∀ f ∈ goodFiles e₂, dir <+: f.path := fun f hf =>
    hunder f (hgood.mem_iff.mpr hf)
  have hn₁ : buildNames b env fuel fs e₁
      = ((goodFiles e₁).map (fun f => mkTestPath b dir f.path)).map
          (fun t => t.name) := by
    simp [buildNames, build, hdir, buildAll_eq_map b dir _ hunder]
  have hn₂ : buildNames b env fuel fs e₂
      = ((goodFiles e₂).map (fun f => mkTestPath b dir f.path)).map
          (fun t => t.name) := by
    simp [buildNames, build, hdir, buildAll_eq_map b dir _ hunder₂]
  rw [hn₁, hn₂]
  exact (hgood.map _).map _

/-- C8 witness: the same two files listed in either order generate the
same set of test names. -/
theorem buildNames_deterministic_witness :
    (buildNames bEx envEx 1 fsEx entriesP₁).Perm
      (buildNames bEx envEx 1 fsEx entriesP₂) :=
  buildNames_deterministic bEx envEx 1 fsEx ["/", "d"] entriesP₁ entriesP₂
    (by decide) (by decide) (by decide)

theorem parse_ok_count (toks : List (String × AVal)) :
    ∀ (visited : List String) (acc : DirTestArg),
      (parseArgsFrom toks visited acc).isOk = true →
      ∀ k : String,
        toks.countP (fun t => t.1 == k)
          + (if visited.contains k then 1 else 0) ≤ 1 := by
  induction toks with
  | nil =>
    intro visited acc _ k
    simp only [List.countP_nil, Nat.zero_add]
    split <;> omega
  | cons t rest ih =>
    intro visited acc h k
    obtain ⟨k₀, v⟩ := t
    rw [List.countP_cons]
    by_cases hv : visited.contains k₀ = true
    · simp only [parseArgsFrom] at h
      rw [if_pos hv] at h
      simp [Except.isOk, Except.toBool] at h
    · simp only [parseArgsFrom] at h
      rw [if_neg hv] at h
      cases hap : applyArg acc k₀ v with
      | error e =>
        simp only [hap] at h
        simp [Except.isOk, Except.toBool] at h
      | ok acc' =>
        simp only [hap] at h
        have h1 := ih (k₀ :: visited) acc' h k
        by_cases hk : k₀ = k
        · subst hk
          have hbeq : ((k₀, v).1 == k₀) = true := by simp
          rw [if_pos hbeq, if_neg hv]
          have hcc : (k₀ :: visited).contains k₀ = true := by simp
          rw [if_pos hcc] at h1
          omega
        · have hbeq : ((k₀, v).1 == k) = false := by simpa using hk
          simp only [hbeq, Bool.false_eq_true, if_false]
          have hne : (k == k₀) = false := by
            simpa using fun hh => hk hh.symm
          have hcc : (k₀ :: visited).contains k = visited.contains k := by
            rw [List.contains_cons, hne, Bool.false_or]
          rw [hcc] at h1
          by_cases hvk : visited.contains k = true
          · rw [if_pos hvk] at h1 ⊢
            omega
          · rw [if_neg hvk] at h1 ⊢
            omega

/-- C6: a configuration token sequence in which the same key occurs more
than once — with identical or different values — never parses to a
`DirTestArg`; in particular two `dir` entries produce the duplicated-key
error regardless of the values. -/
theorem parse_duplicate_key_rejected :
    (∀ (toks : List (String × AVal)) (k : String),
        2 ≤ toks.countP (fun t => t.1 == k) →
        (parseDirTestArg toks).isOk = false) ∧
    (∀ v₁ v₂ : String,
        parseDirTestArg [("dir", AVal.str v₁), ("dir", AVal.str v₂)]
          = .error (.duplicatedArg "dir")) := by
  constructor
  · intro toks k h
    cases hok : (parseDirTestArg toks).isOk with
    | false => rfl
    | true =>
      have h1 := parse_ok_count toks [] ⟨none, none, none, none⟩ hok k
      simp only [List.contains_nil, if_neg, Bool.false_eq_true] at h1
      omega
  · intro v₁ v₂
    rfl

/-- C6 witness: `dir` supplied twice with different values is rejected,
and the reported error is the duplicated-key error. -/
theorem parse_duplicate_key_rejected_witness :
    (parseDirTestArg [("dir", AVal.str "/a"), ("glob", AVal.str "*"),
        ("dir", AVal.str "/b")]).isOk = false ∧
    parseDirTestArg [("dir", AVal.str "/x"), ("dir", AVal.str "/y")]
      = .error (.duplicatedArg "dir") :=
  ⟨parse_duplicate_key_rejected.1 _ "dir" (by decide),
   parse_duplicate_key_rejected.2 "/x" "/y"⟩
